import Mathlib

/-!
Verification of the node-runner worker-pool supervisor.

Shallow embedding of `src/main/NodeRunner.ts` (three concatenated variants of
the `NodeRunner` class plus the full `WorkerProcess` class), `src/main/WorkerQueue.ts`,
`src/main/errors.ts`, `src/bin/worker.ts` and the unnamed variant sources
(`part_000` .. `part_005`).  Pure control flow is translated into Lean
functions; stateful classes become explicit state records with step relations;
asynchronous races are resolved by an explicit "first event" parameter.
-/

/-- JSON values, as produced and consumed over the worker IPC socket. -/
inductive Json where
  | null : Json
  | bool (b : Bool) : Json
  | num (n : Int) : Json
  | str (s : String) : Json
  | arr (elems : List Json) : Json
  | obj (fields : List (String × Json)) : Json

/-- Embeds an error class of `src/main/errors.ts`: every class there carries
its constructor name (`override name = this.constructor.name`) and a numeric
`status` field. -/
structure ErrorClass where
  name : String
  status : Int
deriving DecidableEq, Repr

/-- Embeds `class WorkerError` (src/main/errors.ts lines 1-4): `status = 500`. -/
def WorkerError : ErrorClass := ⟨"WorkerError", 500⟩

/-- Embeds `class ComputeTimeoutError` (src/main/errors.ts lines 6-9): `status = 408`. -/
def ComputeTimeoutError : ErrorClass := ⟨"ComputeTimeoutError", 408⟩

/-- Embeds `class QueueTimeoutError` (src/main/errors.ts lines 11-14): `status = 429`. -/
def QueueTimeoutError : ErrorClass := ⟨"QueueTimeoutError", 429⟩

/-- Modelled from the spec: `InvalidStateError` is imported by
`src/main/NodeRunner.ts` from `./errors.js`, but its class definition is
absent from `src/main/errors.ts` (only its importers are in the sources).
The spec assigns invalid-state errors status 503 ("503 for invalid state"),
and the class pattern of errors.ts gives `name = this.constructor.name`. -/
def InvalidStateError : ErrorClass := ⟨"InvalidStateError", 503⟩

/-- Worker handle state as seen by the pool-variant `NodeRunner`
(src/main/NodeRunner.ts lines 21-114) working over the `WorkerProcess` of
`src/unnamed/part_002`: a `ready` flag (set by `waitForReady`, cleared by the
process `exit` handler), an `exited` flag (`process.exitCode != null`), and
the `tasksProcessed` counter incremented by `WorkerProcess.compute`. -/
structure PWorker where
  ready : Bool
  exited : Bool
  tasksProcessed : Nat
deriving DecidableEq, Repr

/-- A freshly spawned worker (`WorkerProcess.create`): `tasksProcessed = 0`,
not yet exited; readiness depends on whether the socket file has appeared. -/
def freshWorker (r : Bool) : PWorker :=
  { ready := r, exited := false, tasksProcessed := 0 }

/-- Pool-manager state of the pool-variant `NodeRunner`
(src/main/NodeRunner.ts lines 21-114): the `workerPool` array and the
`running` flag. -/
structure PoolState where
  pool : List PWorker
  running : Bool
deriving DecidableEq, Repr

/-- Embeds the loop body of `NodeRunner.grabWorker`
(src/main/NodeRunner.ts lines 61-83).  The source shifts a worker off the
front of `workerPool`; a non-ready worker is dropped; a worker with
`tasksProcessed > workerRecycleThreshold` is terminated and dropped
(recycled); otherwise the worker is pushed back (the caller forms
`rest ++ [worker]`) and returned.  `none` stands for the source's
empty-pool branch, which awaits `populatePool` and retries; repopulation is
a separate step of `PoolStep`. -/
def grabWorker (threshold : Nat) : List PWorker → Option (PWorker × List PWorker)
  | [] => none
  | worker :: tail =>
    if worker.ready = false then grabWorker threshold tail
    else if threshold < worker.tasksProcessed then grabWorker threshold tail
    else some (worker, tail)

/-- Signals `WorkerProcess.terminate` may send to the child. -/
inductive Signal where
  | sigterm : Signal
  | sigkill : Signal
deriving DecidableEq, Repr

/-- Embeds `WorkerProcess.terminate(killTimeout)`
(src/unnamed/part_002 lines 83-96 and src/main/NodeRunner.ts lines 423-441):
if the process has already exited (`exitCode != null`) nothing is sent;
otherwise SIGTERM is sent and, unless the child exits before the kill timer
fires, the signal escalates to SIGKILL.  `exitsBeforeKillTimer` abstracts
that race. -/
def terminateSignals (alreadyExited exitsBeforeKillTimer : Bool) : List Signal :=
  if alreadyExited then []
  else if exitsBeforeKillTimer then [Signal.sigterm]
  else [Signal.sigterm, Signal.sigkill]

/-- Result of one call to the pool-variant `NodeRunner.compute`
(src/main/NodeRunner.ts lines 53-59). -/
inductive RunnerComputeOutcome where
  | invalidState (e : ErrorClass)
  | dispatched (w : PWorker)
  | awaitingPool
deriving DecidableEq, Repr

/-- Embeds the pool-variant `NodeRunner.compute` (src/main/NodeRunner.ts
lines 53-59) down to worker dispatch: throw `InvalidStateError` when not
`running`; otherwise grab a worker (which the source leaves pushed at the
back of the pool) and dispatch the task to it, whose first action
(`WorkerProcess.compute`, src/unnamed/part_002 line 46) increments
`tasksProcessed` on the pooled handle.  `awaitingPool` stands for the
empty-pool branch that awaits repopulation. -/
def NodeRunnerA.compute (threshold : Nat) (s : PoolState) :
    RunnerComputeOutcome × PoolState :=
  if s.running = false then (RunnerComputeOutcome.invalidState InvalidStateError, s)
  else
    match grabWorker threshold s.pool with
    | some (w, rest) =>
      (RunnerComputeOutcome.dispatched w,
        { pool := rest ++ [{ w with tasksProcessed := w.tasksProcessed + 1 }],
          running := s.running })
    | none => (RunnerComputeOutcome.awaitingPool, s)

/-- Embeds the pool-variant `NodeRunner.stop` (src/main/NodeRunner.ts
lines 43-51): sets `running = false`, empties `workerPool`, and calls
`worker.terminate(workerKillTimeout)` on each worker that was in the pool.
Returns the new state together with the signals each pooled worker was
sent. -/
def NodeRunnerA.stop (exitsBeforeKillTimer : PWorker → Bool) (s : PoolState) :
    PoolState × List (PWorker × List Signal) :=
  ({ pool := [], running := false },
   s.pool.map fun w => (w, terminateSignals w.exited (exitsBeforeKillTimer w)))

/-- One step of the pool-variant `NodeRunner` lifecycle
(src/main/NodeRunner.ts lines 34-104).  `start` turns `running` on and
spawns fresh workers (`populatePool`); `populate` is the background
repopulation; `compute` is an accepted task (grab, hand back, increment);
`workerExit` is the child `exit` handler of src/unnamed/part_002 lines 40-42
clearing `ready`; `stop` drains the pool.  Steps model one caller at a time:
a `compute` step combines the grab and the counter increment. -/
inductive PoolStep (threshold : Nat) : PoolState → PoolState → Prop
  | start (rs : List Bool) (s : PoolState) :
      s.running = false →
      PoolStep threshold s { pool := s.pool ++ rs.map freshWorker, running := true }
  | populate (rs : List Bool) (s : PoolState) :
      PoolStep threshold s { pool := s.pool ++ rs.map freshWorker, running := s.running }
  | compute (s : PoolState) (w : PWorker) (rest : List PWorker) :
      s.running = true →
      grabWorker threshold s.pool = some (w, rest) →
      PoolStep threshold s
        { pool := rest ++ [{ w with tasksProcessed := w.tasksProcessed + 1 }],
          running := true }
  | workerExit (s : PoolState) (w : PWorker) (pre post : List PWorker) :
      s.pool = pre ++ w :: post →
      PoolStep threshold s
        { pool := pre ++ { w with ready := false, exited := true } :: post,
          running := s.running }
  | stop (s : PoolState) :
      PoolStep threshold s { pool := [], running := false }

/-- Pool states reachable from the initial state (empty pool, not running)
by `start` / `compute` / `stop` and the background steps. -/
inductive PoolReach (threshold : Nat) : PoolState → Prop
  | init : PoolReach threshold { pool := [], running := false }
  | step {s t : PoolState} : PoolReach threshold s → PoolStep threshold s t →
      PoolReach threshold t

/-- Idle-worker state as seen by `WorkerQueue` (src/main/WorkerQueue.ts),
working over the one-shot `WorkerProcess` of `src/unnamed/part_003`:
whether the child already exited, and whether it exits before the SIGKILL
timer of `terminate` fires. -/
structure QWorker where
  exited : Bool
  exitsBeforeKillTimer : Bool
deriving DecidableEq, Repr

/-- Embeds `WorkerQueue.stop(force)` (src/main/WorkerQueue.ts lines 39-48):
sets `running = false`, empties `idleWorkers`, and only when `force` is true
calls `worker.terminate()` on each of them.  Returns the emptied idle list
together with the signals each formerly idle worker was sent. -/
def WorkerQueue.stop (force : Bool) (idleWorkers : List QWorker) :
    List QWorker × List (QWorker × List Signal) :=
  ([],
   if force then
     idleWorkers.map fun w => (w, terminateSignals w.exited w.exitsBeforeKillTimer)
   else [])

/-- State of the full `WorkerProcess` (src/main/NodeRunner.ts lines 310-443)
relevant to a single `compute` call: the in-flight counter `pendingTasks`,
the `terminating` flag, and `process.killed`. -/
structure WPComputeState where
  pendingTasks : Int
  terminating : Bool
  killed : Bool
deriving DecidableEq, Repr

/-- Which of the three racing continuations inside `WorkerProcess.compute`
(src/main/NodeRunner.ts lines 358-372) settles the promise first: the
complete response read by `waitForOutput`, the per-task timer, or a socket
`error` event. -/
inductive FirstEvent where
  | responseRead (v : Json)
  | timerFired
  | socketError

/-- Errors a `WorkerProcess.compute` call can reject with. -/
inductive WPComputeError where
  | invalidState
  | computeTimeout
  | socketFailure
deriving DecidableEq, Repr

/-- The error class each `WorkerProcess.compute` rejection carries:
`invalidState` is the thrown `InvalidStateError` ("Worker has been
destroyed"), `computeTimeout` the thrown `ComputeTimeoutError` ("Allocated
compute time exceeded"); a socket failure propagates the raw system error,
which has no class in errors.ts. -/
def WPComputeError.errorClass : WPComputeError → Option ErrorClass
  | WPComputeError.invalidState => some InvalidStateError
  | WPComputeError.computeTimeout => some ComputeTimeoutError
  | WPComputeError.socketFailure => none

/-- Embeds `WorkerProcess.compute` (src/main/NodeRunner.ts lines 351-377).
The source throws `InvalidStateError` when `process.killed`, increments
`pendingTasks`, then awaits `this.connect()`; if the connection is refused
the call rejects there, before the promise carrying the
`.finally(() => { this.pendingTasks -= 1; ... })` handler is ever created,
so `pendingTasks` stays incremented.  Once connected, the first of response /
timer / socket-error settles the call and `.finally` decrements
`pendingTasks`.  Nothing in any path touches the `terminating` flag. -/
def WorkerProcess.compute (connectOk : Bool) (ev : FirstEvent)
    (s : WPComputeState) : Except WPComputeError Json × WPComputeState :=
  if s.killed = true then (Except.error WPComputeError.invalidState, s)
  else
    let s1 : WPComputeState := { s with pendingTasks := s.pendingTasks + 1 }
    if connectOk = false then (Except.error WPComputeError.socketFailure, s1)
    else
      let s2 : WPComputeState := { s1 with pendingTasks := s1.pendingTasks - 1 }
      match ev with
      | FirstEvent.responseRead v => (Except.ok v, s2)
      | FirstEvent.timerFired => (Except.error WPComputeError.computeTimeout, s2)
      | FirstEvent.socketError => (Except.error WPComputeError.socketFailure, s2)

/-- Termination-related state of the full `WorkerProcess`
(src/main/NodeRunner.ts lines 310-443): the in-flight counter, the
`terminating` flag (which doubles as "the `onTaskFinished` finalizer of
`scheduleTermination` is registered"), membership in the static
`terminatingWorkers` registry, `process.killed`, and how many SIGTERMs the
finalizer has sent. -/
structure WPTermState where
  pendingTasks : Nat
  terminating : Bool
  inRegistry : Bool
  killed : Bool
  sigterms : Nat
deriving DecidableEq, Repr

/-- Embeds `WorkerProcess.scheduleTermination` (src/main/NodeRunner.ts
lines 410-421): returns immediately when `terminating` is already set;
otherwise sets it, adds the handle to `WorkerProcess.terminatingWorkers`,
and registers the `onTaskFinished` finalizer. -/
def scheduleTermination (s : WPTermState) : WPTermState :=
  if s.terminating = true then s
  else { s with terminating := true, inRegistry := true }

/-- Entry of a `WorkerProcess.compute` call (src/main/NodeRunner.ts
lines 351-355): permitted only while `process.killed` is false, and
increments `pendingTasks`. -/
def taskStart (s : WPTermState) : WPTermState :=
  { s with pendingTasks := s.pendingTasks + 1 }

/-- Settling of a `WorkerProcess.compute` call (src/main/NodeRunner.ts
lines 373-376 with the finalizer of lines 416-420): `.finally` decrements
`pendingTasks` and emits `onTaskFinished`; the listener registered by
`scheduleTermination` then sends SIGTERM if `pendingTasks === 0`. -/
def taskFinish (s : WPTermState) : WPTermState :=
  let p := s.pendingTasks - 1
  if s.terminating = true ∧ p = 0 then
    { s with pendingTasks := p, killed := true, sigterms := s.sigterms + 1 }
  else { s with pendingTasks := p }

/-- One step of the `WorkerProcess` termination lifecycle: a
`scheduleTermination` call, a task starting (guarded by `process.killed`),
or a task settling (only possible while a task is in flight). -/
inductive WPStep : WPTermState → WPTermState → Prop
  | schedule (s : WPTermState) : WPStep s (scheduleTermination s)
  | start (s : WPTermState) : s.killed = false → WPStep s (taskStart s)
  | finish (s : WPTermState) : 1 ≤ s.pendingTasks → WPStep s (taskFinish s)

/-- Worker-handle termination states reachable from a fresh handle
(`pendingTasks = 0`, no flags set, no signal sent). -/
inductive WPReach : WPTermState → Prop
  | init : WPReach ⟨0, false, false, false, 0⟩
  | step {s t : WPTermState} : WPReach s → WPStep s t → WPReach t

/-- Auxiliary invariant of the termination lifecycle: the finalizer has
fired at most once, it has fired exactly when `process.killed`, and a killed
handle has no in-flight tasks. -/
def WPInv (s : WPTermState) : Prop :=
  s.sigterms ≤ 1 ∧ (s.killed = true ↔ s.sigterms ≠ 0) ∧
    (s.killed = true → s.pendingTasks = 0)

/-- Outcome of `WorkerProcess.waitForReady(timeout)`
(src/main/NodeRunner.ts lines 395-408): either the socket file was observed
(recording the successful attempt number and the milliseconds slept before
it), or the loop ran out of time and threw. -/
inductive WaitOutcome where
  | ready (attempts : Nat) (elapsed : Nat)
  | timeoutError (e : ErrorClass)
deriving DecidableEq, Repr

/-- Embeds the polling loop of `WorkerProcess.waitForReady`
(src/main/NodeRunner.ts lines 395-408).  `statOk a` tells whether
`stat(socketFile)` succeeds on attempt `a`; `now` is the milliseconds slept
so far (the loop itself consumes no other time); the loop runs while
`now < timeout`, increments the attempt counter, returns on a successful
stat, and otherwise sleeps `20 * attempt` milliseconds.  When the deadline
passes it throws `WorkerError` ("Timeout waiting for worker readiness"). -/
def waitLoop (timeout : Nat) (statOk : Nat → Bool) (now i : Nat) : WaitOutcome :=
  if h : now < timeout then
    if statOk (i + 1) then WaitOutcome.ready (i + 1) now
    else waitLoop timeout statOk (now + 20 * (i + 1)) (i + 1)
  else WaitOutcome.timeoutError WorkerError
termination_by timeout - now
decreasing_by omega

/-- Embeds `WorkerProcess.waitForReady(timeout)` (src/main/NodeRunner.ts
lines 395-408): the polling loop started at time 0 with attempt counter 0. -/
def WorkerProcess.waitForReady (timeout : Nat) (statOk : Nat → Bool) : WaitOutcome :=
  waitLoop timeout statOk 0 0

/-- Per-attempt outcome of the dispatch inside the retry-variant
`NodeRunner.compute` (src/main/NodeRunner.ts lines 244-268): either the task
resolves, or the attempt throws an `ECONNREFUSED` error naming the current
worker's socket file, or it throws some other error. -/
inductive AttemptError where
  | connRefusedOwnSocket
  | otherFailure (e : ErrorClass)
deriving DecidableEq, Repr

/-- Result of one attempt of the retry loop. -/
inductive AttemptOutcome where
  | ok (v : Json)
  | err (e : AttemptError)

/-- Embeds the `for (let i = 0; i <= retries; i++)` body of the
retry-variant `NodeRunner.compute` (src/main/NodeRunner.ts lines 246-267).
`fuel` counts the remaining iterations (`retries + 1 - i`), `i` the current
index.  An `ECONNREFUSED` error naming the acquired worker's socket file
drops the worker and continues the loop; but when this task triggered the
recycle branch (`tasksProcessed % recycleThreshold === 0`), `currentWorker`
was already set to `null` before dispatch, so the `socketFile` guard of the
catch fails and even `ECONNREFUSED` is rethrown.  Any other error is
rethrown.  When the loop ends without returning, the async function
resolves with `undefined`, modelled as `none`. -/
def computeRetryLoop (recycle : Bool) (env : Nat → AttemptOutcome) :
    Nat → Nat → Option (Except AttemptError Json)
  | 0, _ => none
  | fuel + 1, i =>
    match env i with
    | AttemptOutcome.ok v => some (Except.ok v)
    | AttemptOutcome.err AttemptError.connRefusedOwnSocket =>
      if recycle then some (Except.error AttemptError.connRefusedOwnSocket)
      else computeRetryLoop recycle env fuel (i + 1)
    | AttemptOutcome.err (AttemptError.otherFailure e) =>
      some (Except.error (AttemptError.otherFailure e))

/-- Embeds the retry-variant `NodeRunner.compute` (src/main/NodeRunner.ts
lines 244-268) after the initial `tasksProcessed += 1`: the loop runs for
indices `0 .. retries`. -/
def NodeRunnerC.compute (retries : Nat) (recycle : Bool)
    (env : Nat → AttemptOutcome) : Option (Except AttemptError Json) :=
  computeRetryLoop recycle env (retries + 1) 0

/-- The JavaScript error value serialized by the catch branch of
`serveClient` (src/bin/worker.ts lines 48-53): `error.name`,
`error.message`, and `error.status`, the last possibly `undefined` (absent
from the serialized JSON). -/
structure JsError where
  name : String
  message : String
  status : Option Int
deriving DecidableEq, Repr

/-- Where a connection served by `serveClient` (src/bin/worker.ts
lines 35-57) ends up: `JSON.parse` of the request throws, the dynamic
`import(moduleUrl)` throws, the awaited `compute(params, ctx)` throws, or
the computation succeeds with a result value. -/
inductive ServeOutcome where
  | parseFailure (e : JsError)
  | importFailure (e : JsError)
  | computeFailure (e : JsError)
  | success (result : Json)

/-- The JSON document `JSON.stringify` produces for the catch branch of
`serveClient` (src/bin/worker.ts lines 49-53): a flat object literal with
keys `name`, `message`, `status` in that order; a key whose value is
`undefined` is dropped by `JSON.stringify`. -/
def errorResponse (e : JsError) : Json :=
  Json.obj ([("name", Json.str e.name), ("message", Json.str e.message)] ++
    (match e.status with
     | some n => [("status", Json.num n)]
     | none => []))

/-- Embeds the response `serveClient` (src/bin/worker.ts lines 35-57) writes
to the socket: on success the serialized result value itself
(`Buffer.from(JSON.stringify(result))`), on any failure the flat
`name`/`message`/`status` object. -/
def serveClientResponse : ServeOutcome → Json
  | ServeOutcome.parseFailure e => errorResponse e
  | ServeOutcome.importFailure e => errorResponse e
  | ServeOutcome.computeFailure e => errorResponse e
  | ServeOutcome.success result => result

/-- Tests whether a JSON value is an object (both envelope shapes of the
claimed wire protocol are objects). -/
def Json.isObj : Json → Bool
  | Json.obj _ => true
  | Json.null => false
  | Json.bool _ => false
  | Json.num _ => false
  | Json.str _ => false
  | Json.arr _ => false

/-- A worker returned by `grabWorker` came from the scanned pool, and the
remainder is a sublist of the scanned pool. -/
theorem grabWorker_mem {threshold : Nat} :
    ∀ {pool : List PWorker} {w : PWorker} {rest : List PWorker},
      grabWorker threshold pool = some (w, rest) →
      w ∈ pool ∧ ∀ x ∈ rest, x ∈ pool := by
  intro pool
  induction pool with
  | nil => intro w rest h; simp [grabWorker] at h
  | cons head tail ih =>
    intro w rest h
    by_cases hr : head.ready = false
    · simp [grabWorker, hr] at h
      rcases ih h with ⟨hw, hrest⟩
      exact ⟨List.mem_cons_of_mem _ hw, fun x hx => List.mem_cons_of_mem _ (hrest x hx)⟩
    · by_cases ht : threshold < head.tasksProcessed
      · simp [grabWorker, hr, ht] at h
        rcases ih h with ⟨hw, hrest⟩
        exact ⟨List.mem_cons_of_mem _ hw, fun x hx => List.mem_cons_of_mem _ (hrest x hx)⟩
      · simp [grabWorker, hr, ht] at h
        rcases h with ⟨hw, hrest⟩
        subst hw; subst hrest
        exact ⟨List.mem_cons_self _ _, fun x hx => List.mem_cons_of_mem _ hx⟩

/-- A worker returned by `grabWorker` passed the recycle check, i.e. its
task counter is at most the threshold (the source recycles only on a strict
`tasksProcessed > workerRecycleThreshold`). -/
theorem grabWorker_le {threshold : Nat} :
    ∀ {pool : List PWorker} {w : PWorker} {rest : List PWorker},
      grabWorker threshold pool = some (w, rest) → w.tasksProcessed ≤ threshold := by
  intro pool
  induction pool with
  | nil => intro w rest h; simp [grabWorker] at h
  | cons head tail ih =>
    intro w rest h
    by_cases hr : head.ready = false
    · simp [grabWorker, hr] at h; exact ih h
    · by_cases ht : threshold < head.tasksProcessed
      · simp [grabWorker, hr, ht] at h; exact ih h
      · simp [grabWorker, hr, ht] at h
        rcases h with ⟨hw, _⟩
        subst hw; omega

/-- Task-counter bound preserved by every pool step: every pooled worker
keeps `tasksProcessed ≤ threshold + 1`. -/
theorem poolStep_bound {threshold : Nat} {s t : PoolState}
    (hstep : PoolStep threshold s t)
    (hinv : ∀ w ∈ s.pool, w.tasksProcessed ≤ threshold + 1) :
    ∀ w ∈ t.pool, w.tasksProcessed ≤ threshold + 1 := by
  cases hstep with
  | start rs s hrun =>
    intro w hw
    rcases List.mem_append.mp hw with h | h
    · exact hinv w h
    · rcases List.mem_map.mp h with ⟨r, _, hr⟩
      subst hr; simp [freshWorker]
  | populate rs s =>
    intro w hw
    rcases List.mem_append.mp hw with h | h
    · exact hinv w h
    · rcases List.mem_map.mp h with ⟨r, _, hr⟩
      subst hr; simp [freshWorker]
  | compute s w rest hrun hgrab =>
    intro x hx
    rcases List.mem_append.mp hx with h | h
    · exact hinv x ((grabWorker_mem hgrab).2 x h)
    · rcases List.mem_singleton.mp h with rfl
      have := grabWorker_le hgrab
      simp; omega
  | workerExit s w pre post hpool =>
    intro x hx
    have hmem : ∀ y ∈ s.pool, y.tasksProcessed ≤ threshold + 1 := hinv
    rw [hpool] at hmem
    rcases List.mem_append.mp hx with h | h
    · exact hmem x (List.mem_append.mpr (Or.inl h))
    · rcases List.mem_cons.mp h with rfl | h
      · have : w ∈ pre ++ w :: post := List.mem_append.mpr (Or.inr (List.mem_cons_self _ _))
        have := hmem w this
        simpa using this
      · exact hmem x (List.mem_append.mpr (Or.inr (List.mem_cons_of_mem _ h)))
  | stop s =>
    intro w hw; simp at hw

/-- Every reachable pool state keeps every pooled worker at
`tasksProcessed ≤ threshold + 1`. -/
theorem poolReach_bound {threshold : Nat} {s : PoolState}
    (h : PoolReach threshold s) :
    ∀ w ∈ s.pool, w.tasksProcessed ≤ threshold + 1 := by
  induction h with
  | init => intro w hw; simp at hw
  | step hr hstep ih => exact poolStep_bound hstep ih

/-- The termination invariant is preserved by every step. -/
theorem wpStep_inv {s t : WPTermState} (hstep : WPStep s t) (hinv : WPInv s) :
    WPInv t := by
  rcases hinv with ⟨h1, h2, h3⟩
  cases hstep with
  | schedule =>
    unfold WPInv scheduleTermination
    by_cases ht : s.terminating = true
    · rw [if_pos ht]; exact ⟨h1, h2, h3⟩
    · rw [if_neg ht]; exact ⟨h1, h2, h3⟩
  | start hk =>
    refine ⟨h1, h2, fun hk2 => ?_⟩
    exact Bool.noConfusion (hk.symm.trans (show s.killed = true from hk2))
  | finish hp =>
    have hk : s.killed = false := by
      cases hkill : s.killed
      · rfl
      · exact absurd (h3 hkill) (by omega)
    unfold WPInv taskFinish
    simp only []
    by_cases hcond : s.terminating = true ∧ s.pendingTasks - 1 = 0
    · rw [if_pos hcond]
      have hs0 : s.sigterms = 0 := by
        by_contra hne
        exact Bool.noConfusion (hk.symm.trans (h2.mpr hne))
      dsimp only
      refine ⟨by omega, ⟨fun _ => by omega, fun _ => rfl⟩, fun _ => hcond.2⟩
    · rw [if_neg hcond]
      refine ⟨h1, h2, fun hk2 => ?_⟩
      exact Bool.noConfusion (hk.symm.trans (show s.killed = true from hk2))

/-- Every reachable termination state satisfies the invariant. -/
theorem wpReach_inv {s : WPTermState} (h : WPReach s) : WPInv s := by
  induction h with
  | init => exact ⟨by simp, by simp, by simp⟩
  | step hr hstep ih => exact wpStep_inv hstep ih

/-- C1 counterexample: with `workerRecycleThreshold = 1` the pool state
holding one ready worker with `tasksProcessed = 1` is reachable
(start with one worker, run one task), and `grabWorker` hands that worker
back to the pool even though its counter has reached the threshold — the
recycle check `tasksProcessed > threshold` is strict, refuting
"tasksProcessed strictly less than the threshold for every handle handed
back". -/
theorem c1_counterexample :
    PoolReach 1 ⟨[⟨true, false, 1⟩], true⟩ ∧
      grabWorker 1 [⟨true, false, 1⟩] = some (⟨true, false, 1⟩, []) ∧
      ¬ (1 < 1) := by
  refine ⟨?_, by decide, by decide⟩
  have h0 : PoolReach 1 ⟨[], false⟩ := PoolReach.init
  have h1 : PoolReach 1 ⟨[freshWorker true], true⟩ :=
    PoolReach.step h0 (PoolStep.start [true] ⟨[], false⟩ rfl)
  exact PoolReach.step h1
    (PoolStep.compute ⟨[freshWorker true], true⟩ (freshWorker true) [] rfl (by decide))

/-- C1 (amended): in every pool state reachable by start/compute/stop,
every handle in the worker pool has `tasksProcessed ≤ threshold + 1`, and
every handle `grabWorker` hands back to the pool has
`tasksProcessed ≤ threshold` (the recycle check is the strict
`tasksProcessed > threshold`, so a handle that has exactly reached the
threshold is still reused once more and its counter is incremented after
the hand-back). -/
theorem c1_pool_recycle_bound (threshold : Nat) :
    (∀ s : PoolState, PoolReach threshold s →
        ∀ w ∈ s.pool, w.tasksProcessed ≤ threshold + 1) ∧
      (∀ (pool : List PWorker) (w : PWorker) (rest : List PWorker),
        grabWorker threshold pool = some (w, rest) → w.tasksProcessed ≤ threshold) :=
  ⟨fun _ h => poolReach_bound h, fun _ _ _ h => grabWorker_le h⟩

/-- C1 witness: the two bounds evaluated at a concrete reachable state and
a concrete grab. -/
theorem c1_pool_recycle_bound_witness :
    (⟨true, false, 0⟩ : PWorker).tasksProcessed ≤ 1 + 1 ∧
      (⟨true, false, 0⟩ : PWorker).tasksProcessed ≤ 1 := by
  have hreach : PoolReach 1 ⟨[⟨true, false, 0⟩], true⟩ :=
    PoolReach.step PoolReach.init (PoolStep.start [true] ⟨[], false⟩ rfl)
  exact ⟨(c1_pool_recycle_bound 1).1 ⟨[⟨true, false, 0⟩], true⟩ hreach
      ⟨true, false, 0⟩ (by simp),
    (c1_pool_recycle_bound 1).2 [⟨true, false, 0⟩] ⟨true, false, 0⟩ [] (by decide)⟩

/-- C5: a `compute` call made while the runner is not running — whether it
was never started or `stop()` already ran — throws `InvalidStateError` and
leaves the state untouched: no worker is acquired, no task dispatched. -/
theorem c5_compute_not_running (threshold : Nat) :
    (∀ s : PoolState, s.running = false →
        NodeRunnerA.compute threshold s =
          (RunnerComputeOutcome.invalidState InvalidStateError, s)) ∧
      (∀ (f : PWorker → Bool) (s : PoolState),
        NodeRunnerA.compute threshold (NodeRunnerA.stop f s).1 =
          (RunnerComputeOutcome.invalidState InvalidStateError,
            (NodeRunnerA.stop f s).1)) := by
  constructor
  · intro s h
    simp [NodeRunnerA.compute, h]
  · intro f s
    simp [NodeRunnerA.compute, NodeRunnerA.stop]

/-- C5 witness: computing on a never-started runner and right after a stop. -/
theorem c5_compute_not_running_witness :
    NodeRunnerA.compute 5 ⟨[⟨true, false, 0⟩], false⟩ =
      (RunnerComputeOutcome.invalidState InvalidStateError,
        ⟨[⟨true, false, 0⟩], false⟩) :=
  (c5_compute_not_running 5).1 ⟨[⟨true, false, 0⟩], false⟩ rfl

/-- C6 counterexample: `WorkerQueue.stop` called without `force` (its
default) drops a live idle worker from the queue without sending it any
signal, refuting "after stop() returns, every child worker process has been
signalled to exit". -/
theorem c6_counterexample :
    (WorkerQueue.stop false [⟨false, true⟩]).2 = [] ∧
      (⟨false, true⟩ : QWorker).exited = false :=
  ⟨rfl, rfl⟩

/-- C6 (amended): the pool-variant `NodeRunner.stop` drains the pool, clears
`running`, and signals every not-yet-exited pooled worker with SIGTERM
(escalating to SIGKILL when the child does not exit before the kill timer);
`WorkerQueue.stop` signals its idle workers only when called with
`force = true` and sends nothing otherwise; neither cited stop consults a
`terminatingWorkers` set. -/
theorem c6_stop_signals :
    (∀ (f : PWorker → Bool) (s : PoolState),
        (NodeRunnerA.stop f s).1 = ⟨[], false⟩ ∧
          ∀ w ∈ s.pool, w.exited = false →
            (w, terminateSignals w.exited (f w)) ∈ (NodeRunnerA.stop f s).2 ∧
              Signal.sigterm ∈ terminateSignals w.exited (f w)) ∧
      (∀ idle : List QWorker,
        (WorkerQueue.stop false idle).2 = [] ∧
          ∀ w ∈ idle, w.exited = false →
            (w, terminateSignals w.exited w.exitsBeforeKillTimer) ∈
                (WorkerQueue.stop true idle).2 ∧
              Signal.sigterm ∈ terminateSignals w.exited w.exitsBeforeKillTimer) := by
  constructor
  · intro f s
    refine ⟨rfl, fun w hw hex => ⟨?_, ?_⟩⟩
    · exact List.mem_map_of_mem (fun w => (w, terminateSignals w.exited (f w))) hw
    · rw [hex]
      unfold terminateSignals
      by_cases hq : f w = true <;> simp [hq]
  · intro idle
    refine ⟨rfl, fun w hw hex => ⟨?_, ?_⟩⟩
    · exact List.mem_map_of_mem
        (fun w => (w, terminateSignals w.exited w.exitsBeforeKillTimer)) hw
    · rw [hex]
      unfold terminateSignals
      by_cases hq : w.exitsBeforeKillTimer = true <;> simp [hq]

/-- C6 witness: the signal facts evaluated on a one-worker pool and a
one-worker idle queue. -/
theorem c6_stop_signals_witness :
    ((⟨true, false, 3⟩ : PWorker), terminateSignals false true) ∈
        (NodeRunnerA.stop (fun _ => true) ⟨[⟨true, false, 3⟩], true⟩).2 ∧
      ((⟨false, false⟩ : QWorker), terminateSignals false false) ∈
        (WorkerQueue.stop true [⟨false, false⟩]).2 := by
  refine ⟨?_, ?_⟩
  · exact (((c6_stop_signals).1 (fun _ => true) ⟨[⟨true, false, 3⟩], true⟩).2
      ⟨true, false, 3⟩ (by simp) rfl).1
  · exact (((c6_stop_signals).2 [⟨false, false⟩]).2 ⟨false, false⟩ (by simp) rfl).1

/-- C2 counterexample: for a successful computation `serveClient` writes the
serialized result value itself, not a `result` envelope — for the result
string "Hello, World" the response is that string, which is not even a JSON
object; and for a failure it writes a flat `name`/`message`/`status` object,
not an `error` envelope. -/
theorem c2_counterexample :
    serveClientResponse (ServeOutcome.success (Json.str "Hello, World")) =
        Json.str "Hello, World" ∧
      (serveClientResponse (ServeOutcome.success (Json.str "Hello, World"))).isObj =
        false ∧
      serveClientResponse (ServeOutcome.computeFailure ⟨"Error", "boom", some 500⟩) =
        Json.obj [("name", Json.str "Error"), ("message", Json.str "boom"),
          ("status", Json.num 500)] :=
  ⟨rfl, rfl, rfl⟩

/-- C2 (amended): every response `serveClient` writes is exactly one of two
shapes — on success the serialized result value itself (verbatim, with no
envelope), and on any decode/import/compute failure a flat object with keys
`name` and `message` (strings) and, when the thrown error carries one, a
`status` — never a `result` or `error` envelope. -/
theorem c2_response_shape :
    ∀ o : ServeOutcome,
      (∃ r, o = ServeOutcome.success r ∧ serveClientResponse o = r) ∨
      (∃ n m : String,
        serveClientResponse o =
            Json.obj [("name", Json.str n), ("message", Json.str m)] ∨
          ∃ st : Int, serveClientResponse o =
            Json.obj [("name", Json.str n), ("message", Json.str m),
              ("status", Json.num st)]) := by
  intro o
  cases o with
  | success r => exact Or.inl ⟨r, rfl, rfl⟩
  | parseFailure e =>
    refine Or.inr ⟨e.name, e.message, ?_⟩
    cases hst : e.status with
    | none => exact Or.inl (by simp [serveClientResponse, errorResponse, hst])
    | some n => exact Or.inr ⟨n, by simp [serveClientResponse, errorResponse, hst]⟩
  | importFailure e =>
    refine Or.inr ⟨e.name, e.message, ?_⟩
    cases hst : e.status with
    | none => exact Or.inl (by simp [serveClientResponse, errorResponse, hst])
    | some n => exact Or.inr ⟨n, by simp [serveClientResponse, errorResponse, hst]⟩
  | computeFailure e =>
    refine Or.inr ⟨e.name, e.message, ?_⟩
    cases hst : e.status with
    | none => exact Or.inl (by simp [serveClientResponse, errorResponse, hst])
    | some n => exact Or.inr ⟨n, by simp [serveClientResponse, errorResponse, hst]⟩

/-- C3 counterexample: when the per-task timer fires first, the call rejects
with `ComputeTimeoutError`, but the handle is not marked Terminating — the
`terminating` flag is still false afterwards, refuting "the handle that
served it is marked Terminating". -/
theorem c3_counterexample :
    (WorkerProcess.compute true FirstEvent.timerFired ⟨0, false, false⟩).1 =
        Except.error WPComputeError.computeTimeout ∧
      ((WorkerProcess.compute true FirstEvent.timerFired ⟨0, false, false⟩).2).terminating =
        false :=
  ⟨rfl, rfl⟩

/-- C3 (amended): when the per-task timer fires before a complete response
is read, the call fails with `ComputeTimeoutError` (whose class carries
status 408), but the handle is not tainted: `compute` leaves the
`terminating` flag exactly as it was and does not kill the process, so
nothing prevents the handle from serving later tasks. -/
theorem c3_timeout_not_tainted (s : WPComputeState) (h : s.killed = false) :
    (WorkerProcess.compute true FirstEvent.timerFired s).1 =
        Except.error WPComputeError.computeTimeout ∧
      ((WorkerProcess.compute true FirstEvent.timerFired s).2).terminating =
        s.terminating ∧
      ((WorkerProcess.compute true FirstEvent.timerFired s).2).killed = s.killed ∧
      WPComputeError.errorClass WPComputeError.computeTimeout =
        some ComputeTimeoutError := by
  simp [WorkerProcess.compute, h, WPComputeError.errorClass]

/-- C3 witness: the timeout behaviour evaluated on a fresh handle. -/
theorem c3_timeout_not_tainted_witness :
    (WorkerProcess.compute true FirstEvent.timerFired ⟨2, false, false⟩).1 =
        Except.error WPComputeError.computeTimeout ∧
      ((WorkerProcess.compute true FirstEvent.timerFired ⟨2, false, false⟩).2).terminating =
        (⟨2, false, false⟩ : WPComputeState).terminating ∧
      ((WorkerProcess.compute true FirstEvent.timerFired ⟨2, false, false⟩).2).killed =
        (⟨2, false, false⟩ : WPComputeState).killed ∧
      WPComputeError.errorClass WPComputeError.computeTimeout =
        some ComputeTimeoutError :=
  c3_timeout_not_tainted ⟨2, false, false⟩ rfl

/-- C4: when every attempt of the retry loop hits `ECONNREFUSED` on the
acquired handle's socket path, the `for (let i = 0; i <= retries; i++)`
loop of the retry-variant `NodeRunner.compute` runs out of iterations and
the async function falls through, resolving with `undefined` (`none`):
no `WorkerCrashError` — a class src never defines — is thrown and no result
is produced.  A refused attempt followed by a successful one within the
budget does resolve with the result. -/
theorem c4_retries_exhausted_returns_undefined :
    (∀ retries : Nat,
        NodeRunnerC.compute retries false
          (fun _ => AttemptOutcome.err AttemptError.connRefusedOwnSocket) = none) ∧
      NodeRunnerC.compute 1 false
        (fun i => if i = 0 then AttemptOutcome.err AttemptError.connRefusedOwnSocket
          else AttemptOutcome.ok (Json.str "retried")) =
        some (Except.ok (Json.str "retried")) := by
  constructor
  · intro retries
    have hgen : ∀ fuel i, computeRetryLoop false
        (fun _ => AttemptOutcome.err AttemptError.connRefusedOwnSocket) fuel i =
          none := by
      intro fuel
      induction fuel with
      | zero => intro i; rfl
      | succ n ih =>
        intro i
        simpa [computeRetryLoop] using ih (i + 1)
    exact hgen (retries + 1) 0
  · rfl

/-- C7: the error kinds surfaced to callers carry the specified `status`
fields — `ComputeTimeoutError` 408, `QueueTimeoutError` 429, `WorkerError`
500, `InvalidStateError` 503 — and the per-task timeout rejection of
`WorkerProcess.compute` indeed carries the `ComputeTimeoutError` class. -/
theorem c7_error_status_codes :
    ComputeTimeoutError.status = 408 ∧
      QueueTimeoutError.status = 429 ∧
      WorkerError.status = 500 ∧
      InvalidStateError.status = 503 ∧
      WPComputeError.errorClass WPComputeError.computeTimeout =
        some ComputeTimeoutError ∧
      WPComputeError.errorClass WPComputeError.invalidState =
        some InvalidStateError :=
  ⟨rfl, rfl, rfl, rfl, rfl, rfl⟩

/-- A reachable handle that has been scheduled for termination is in the
`terminatingWorkers` registry. -/
theorem wpReach_registry {s : WPTermState} (h : WPReach s) :
    s.terminating = true → s.inRegistry = true := by
  induction h with
  | init => intro h2; cases h2
  | @step a b hr hstep ih =>
    cases hstep with
    | schedule =>
      unfold scheduleTermination
      by_cases ht : a.terminating = true
      · rw [if_pos ht]; exact ih
      · rw [if_neg ht]; intro _; rfl
    | start hk => exact ih
    | finish hp =>
      unfold taskFinish
      simp only []
      by_cases hcond : a.terminating = true ∧ a.pendingTasks - 1 = 0
      · rw [if_pos hcond]; exact ih
      · rw [if_neg hcond]; exact ih

/-- C8: `scheduleTermination` is idempotent (the `terminating` flag guards
re-entry); the first call marks the handle Terminating and adds it to the
process-wide `terminatingWorkers` registry (and every reachable terminating
handle is in the registry); the registered finalizer sends SIGTERM exactly
when a task finishes while the handle is terminating and the in-flight count
reaches zero; and across every reachable lifecycle the finalizer kills the
child at most once. -/
theorem c8_schedule_termination :
    (∀ s : WPTermState,
        scheduleTermination (scheduleTermination s) = scheduleTermination s) ∧
      (∀ s : WPTermState, s.terminating = false →
        (scheduleTermination s).terminating = true ∧
          (scheduleTermination s).inRegistry = true) ∧
      (∀ s : WPTermState, WPReach s → s.terminating = true → s.inRegistry = true) ∧
      (∀ s : WPTermState, WPReach s → s.sigterms ≤ 1) ∧
      (∀ s : WPTermState, 1 ≤ s.pendingTasks →
        ((taskFinish s).sigterms = s.sigterms + 1 ↔
          s.terminating = true ∧ s.pendingTasks = 1)) := by
  refine ⟨?_, ?_, ?_, ?_, ?_⟩
  · intro s
    unfold scheduleTermination
    by_cases ht : s.terminating = true
    · rw [if_pos ht, if_pos ht]
    · rw [if_neg ht, if_pos rfl]
  · intro s ht
    unfold scheduleTermination
    rw [if_neg (by rw [ht]; exact Bool.false_ne_true)]
    exact ⟨rfl, rfl⟩
  · intro s h
    exact wpReach_registry h
  · intro s h
    exact (wpReach_inv h).1
  · intro s hp
    unfold taskFinish
    simp only []
    by_cases hcond : s.terminating = true ∧ s.pendingTasks - 1 = 0
    · rw [if_pos hcond]
      obtain ⟨hc1, hc2⟩ := hcond
      constructor
      · intro _
        exact ⟨hc1, by omega⟩
      · intro _
        rfl
    · rw [if_neg hcond]
      constructor
      · intro habs
        simp only [] at habs
        exact absurd habs (by omega)
      · intro hands
        exact absurd ⟨hands.1, by omega⟩ hcond

/-- C8 witness: the idempotence, registry, SIGTERM-at-zero and at-most-once
facts evaluated on a concrete lifecycle (schedule, then one task
finishing). -/
theorem c8_schedule_termination_witness :
    scheduleTermination (scheduleTermination ⟨0, false, false, false, 0⟩) =
        scheduleTermination ⟨0, false, false, false, 0⟩ ∧
      (⟨0, true, true, false, 0⟩ : WPTermState).inRegistry = true ∧
      (⟨0, true, true, false, 0⟩ : WPTermState).sigterms ≤ 1 ∧
      ((taskFinish ⟨1, true, true, false, 0⟩).sigterms =
          (⟨1, true, true, false, 0⟩ : WPTermState).sigterms + 1 ↔
        (⟨1, true, true, false, 0⟩ : WPTermState).terminating = true ∧
          (⟨1, true, true, false, 0⟩ : WPTermState).pendingTasks = 1) := by
  have hreach : WPReach ⟨0, true, true, false, 0⟩ :=
    WPReach.step WPReach.init (WPStep.schedule _)
  exact ⟨c8_schedule_termination.1 ⟨0, false, false, false, 0⟩,
    c8_schedule_termination.2.2.1 ⟨0, true, true, false, 0⟩ hreach rfl,
    c8_schedule_termination.2.2.2.1 ⟨0, true, true, false, 0⟩ hreach,
    c8_schedule_termination.2.2.2.2 ⟨1, true, true, false, 0⟩ (by decide)⟩

/-- Running the polling loop through `n` failed attempts: if attempts
`i+1 .. i+n` all fail, attempt `i+n+1` succeeds, and the accumulated sleep
stays under the deadline, the loop resolves on attempt `i+n+1` after
sleeping `20*(i+1) + ... + 20*(i+n)` more milliseconds. -/
theorem waitLoop_run (timeout : Nat) (statOk : Nat → Bool) :
    ∀ (n i now : Nat),
      (∀ k, i + 1 ≤ k → k ≤ i + n → statOk k = false) →
      statOk (i + n + 1) = true →
      now + (20 * n * i + 10 * n * (n + 1)) < timeout →
      waitLoop timeout statOk now i =
        WaitOutcome.ready (i + n + 1) (now + (20 * n * i + 10 * n * (n + 1))) := by
  intro n
  induction n with
  | zero =>
    intro i now _ hok hlt
    rw [waitLoop]
    rw [dif_pos (by omega)]
    rw [if_pos (by simpa using hok)]
    congr 1
    all_goals omega
  | succ m ih =>
    intro i now hfail hok hlt
    have harith : 20 * (i + 1) + (20 * m * (i + 1) + 10 * m * (m + 1)) =
        20 * (m + 1) * i + 10 * (m + 1) * (m + 2) := by ring
    rw [waitLoop]
    rw [dif_pos (by omega)]
    rw [if_neg (by rw [hfail (i + 1) (by omega) (by omega)]; simp)]
    have hres := ih (i + 1) (now + 20 * (i + 1))
      (fun k hk1 hk2 => hfail k (by omega) (by omega))
      (by
        have heq : i + 1 + m + 1 = i + (m + 1) + 1 := by omega
        rw [heq]; exact hok)
      (by
        have heq : now + 20 * (i + 1) + (20 * m * (i + 1) + 10 * m * (m + 1)) =
            now + (20 * (m + 1) * i + 10 * (m + 1) * (m + 1 + 1)) := by ring
        omega)
    rw [hres]
    congr 1
    · omega
    · ring

/-- When the socket file never appears, the polling loop always ends by
throwing `WorkerError`. -/
theorem waitLoop_never (timeout : Nat) (statOk : Nat → Bool)
    (hfail : ∀ k, statOk k = false) :
    ∀ (bound now i : Nat), timeout - now ≤ bound →
      waitLoop timeout statOk now i = WaitOutcome.timeoutError WorkerError := by
  intro bound
  induction bound with
  | zero =>
    intro now i h
    rw [waitLoop]
    rw [dif_neg (by omega)]
  | succ b ih =>
    intro now i h
    rw [waitLoop]
    by_cases hlt : now < timeout
    · rw [dif_pos hlt]
      rw [if_neg (by rw [hfail (i + 1)]; simp)]
      exact ih (now + 20 * (i + 1)) (i + 1) (by omega)
    · rw [dif_neg hlt]

/-- C9: `waitForReady` polls `stat(socketPath)` sleeping `20ms × attempt`
between failed attempts, resolves on the first attempt on which the socket
file exists (after `n` failures that is attempt `n+1`, reached after
`10·n·(n+1)` ms of accumulated backoff), and when the file never appears the
deadline check fails and the call throws `WorkerError`, whose class carries
status 500. -/
theorem c9_wait_for_ready :
    (∀ (timeout n : Nat) (statOk : Nat → Bool),
        (∀ k, 1 ≤ k → k ≤ n → statOk k = false) →
        statOk (n + 1) = true →
        10 * n * (n + 1) < timeout →
        WorkerProcess.waitForReady timeout statOk =
          WaitOutcome.ready (n + 1) (10 * n * (n + 1))) ∧
      (∀ (timeout : Nat) (statOk : Nat → Bool),
        (∀ k, statOk k = false) →
        WorkerProcess.waitForReady timeout statOk =
          WaitOutcome.timeoutError WorkerError) ∧
      WorkerError.status = 500 := by
  refine ⟨?_, ?_, rfl⟩
  · intro timeout n statOk hfail hok hlt
    have h := waitLoop_run timeout statOk n 0 0
      (fun k hk1 hk2 => hfail k (by omega) (by omega))
      (by
        have heq : 0 + n + 1 = n + 1 := by omega
        rw [heq]; exact hok)
      (by
        have heq : 0 + (20 * n * 0 + 10 * n * (n + 1)) = 10 * n * (n + 1) := by ring
        omega)
    rw [WorkerProcess.waitForReady, h]
    congr 1
    · omega
    · ring
  · intro timeout statOk hfail
    exact waitLoop_never timeout statOk hfail (timeout - 0) 0 0 (by omega)

/-- C9 witness: the socket file appearing on the third attempt is observed
after 20 + 40 ms of backoff; a never-appearing file times out with
`WorkerError` (status 500). -/
theorem c9_wait_for_ready_witness :
    WorkerProcess.waitForReady 100 (fun k => Nat.ble 3 k) =
        WaitOutcome.ready 3 60 ∧
      WorkerProcess.waitForReady 50 (fun _ => false) =
        WaitOutcome.timeoutError WorkerError ∧
      WorkerError.status = 500 := by
  refine ⟨?_, ?_, c9_wait_for_ready.2.2⟩
  · have h := c9_wait_for_ready.1 100 2 (fun k => Nat.ble 3 k)
      (by intro k h1 h2; interval_cases k <;> rfl) rfl (by norm_num)
    norm_num at h
    exact h
  · exact c9_wait_for_ready.2.1 50 (fun _ => false) (fun k => rfl)

/-- C10 counterexample: when the initial socket connection fails, the
`compute` call settles (rejects with the connection error) but
`pendingTasks`, incremented on entry, is never decremented — the
`.finally` handler is attached to a promise that is never created — so the
counter does not return to zero after all calls settle. -/
theorem c10_counterexample :
    (WorkerProcess.compute false FirstEvent.timerFired ⟨0, false, false⟩).1 =
        Except.error WPComputeError.socketFailure ∧
      ((WorkerProcess.compute false FirstEvent.timerFired ⟨0, false, false⟩).2).pendingTasks =
        1 :=
  ⟨rfl, rfl⟩

/-- C10 (amended): a `compute` call on a live handle increments
`pendingTasks` on entry and decrements it exactly once when it settles
provided the socket connection succeeded — success, error and timeout alike
leave the counter where it started; but when the initial connection fails
the call rejects with the counter still incremented, leaving it one above
its starting value.  A call on a killed handle rejects immediately without
touching the counter, and the counter never drops below its starting
point. -/
theorem c10_pending_tasks_accounting :
    ∀ (s : WPComputeState) (connectOk : Bool) (ev : FirstEvent),
      (s.killed = false →
        (connectOk = true →
          ((WorkerProcess.compute connectOk ev s).2).pendingTasks =
            s.pendingTasks) ∧
        (connectOk = false →
          ((WorkerProcess.compute connectOk ev s).2).pendingTasks =
            s.pendingTasks + 1)) ∧
      (s.killed = true →
        WorkerProcess.compute connectOk ev s =
          (Except.error WPComputeError.invalidState, s)) ∧
      (0 ≤ s.pendingTasks →
        0 ≤ ((WorkerProcess.compute connectOk ev s).2).pendingTasks) := by
  intro s connectOk ev
  refine ⟨fun hk => ⟨fun hc => ?_, fun hc => ?_⟩, fun hk => ?_, fun hnn => ?_⟩
  · subst hc
    cases ev <;> simp [WorkerProcess.compute, hk]
  · subst hc
    simp [WorkerProcess.compute, hk]
  · simp [WorkerProcess.compute, hk]
  · by_cases hk : s.killed = true
    · simp [WorkerProcess.compute, hk]
      omega
    · have hk2 : s.killed = false := by
        cases hkill : s.killed
        · rfl
        · exact absurd hkill hk
      cases connectOk
      · simp [WorkerProcess.compute, hk2]
        omega
      · cases ev <;> simp [WorkerProcess.compute, hk2] <;> omega

/-- C10 witness: the accounting evaluated on a fresh handle for a
successful connection, a refused connection, and a killed handle. -/
theorem c10_pending_tasks_accounting_witness :
    ((WorkerProcess.compute true (FirstEvent.responseRead Json.null)
        ⟨0, false, false⟩).2).pendingTasks = (0 : Int) ∧
      ((WorkerProcess.compute false (FirstEvent.responseRead Json.null)
        ⟨0, false, false⟩).2).pendingTasks = (0 : Int) + 1 ∧
      WorkerProcess.compute true (FirstEvent.responseRead Json.null)
        ⟨0, false, true⟩ =
        (Except.error WPComputeError.invalidState, ⟨0, false, true⟩) := by
  have h1 := c10_pending_tasks_accounting ⟨0, false, false⟩ true
    (FirstEvent.responseRead Json.null)
  have h2 := c10_pending_tasks_accounting ⟨0, false, false⟩ false
    (FirstEvent.responseRead Json.null)
  have h3 := c10_pending_tasks_accounting ⟨0, false, true⟩ true
    (FirstEvent.responseRead Json.null)
  exact ⟨(h1.1 rfl).1 rfl, (h2.1 rfl).2 rfl, h3.2.1 rfl⟩

